import Mathlib

/-!
Verification of the sample-construction pipeline in `src/dataloaders.py`
(LocalisationDataLoader, RandomCrop2D, ToTensor).

Volumes are shallowly embedded as a shape triple plus a total data
function; machine floats are modelled as rationals.  numpy slicing,
padding, `np.round` (half to even), `np.mean`/`np.sum` broadcasting and
`np.meshgrid` (xy indexing) are translated faithfully from the source.
Random draws (shuffle permutation, crop offsets, augmentation choice)
are passed in as explicit parameters, constrained by the same bounds the
numpy calls impose.
-/

set_option autoImplicit false

/-- A 3D voxel array: shape `(h, w, d)` with a total data function.
Entries outside the shape are junk and never inspected by theorems. -/
structure Vol where
  h : Nat
  w : Nat
  d : Nat
  data : Nat → Nat → Nat → ℚ

/-- All in-range entries of a volume, row-major (as numpy iterates). -/
def Vol.entries (v : Vol) : List ℚ :=
  (List.range v.h).flatMap fun i =>
    (List.range v.w).flatMap fun j =>
      (List.range v.d).map fun k => v.data i j k

/-- `np.min(v)`: minimum over all entries (junk default on an empty
volume, where numpy would raise). -/
def Vol.vmin (v : Vol) : ℚ := v.entries.foldr min (v.data 0 0 0)

/-- `np.max(v)`: maximum over all entries. -/
def Vol.vmax (v : Vol) : ℚ := v.entries.foldr max (v.data 0 0 0)

/-- The sample dictionary assembled by `LocalisationDataLoader.__getitem__`:
image, label, name and the two affines. -/
structure Sample where
  img : Vol
  lab : Vol
  name : String
  imgAff : List (List ℚ)
  segAff : List (List ℚ)

/-- `np.pad(v, ((p,p),(0,0),(0,0)), constant, constant_values=f)`. -/
def padAxis0 (v : Vol) (p : Nat) (f : ℚ) : Vol :=
  Vol.mk (v.h + 2 * p) v.w v.d
    (fun i j k => if p ≤ i ∧ i < p + v.h then v.data (i - p) j k else f)

/-- `np.pad(v, ((0,0),(p,p),(0,0)), constant, constant_values=f)`. -/
def padAxis1 (v : Vol) (p : Nat) (f : ℚ) : Vol :=
  Vol.mk v.h (v.w + 2 * p) v.d
    (fun i j k => if p ≤ j ∧ j < p + v.w then v.data i (j - p) k else f)

/-- `v[px : px+nh, py : py+nw, :]` — numpy basic slicing, which silently
truncates when the stop index exceeds the extent. -/
def cropVol (v : Vol) (px py nh nw : Nat) : Vol :=
  Vol.mk (min nh (v.h - px)) (min nw (v.w - py)) v.d
    (fun i j k => v.data (i + px) (j + py) k)

/-- `np.round` on a scalar: round half to even (banker's rounding). -/
def roundHalfEven (q : ℚ) : ℤ :=
  if q - (⌊q⌋ : ℚ) < 1 / 2 then ⌊q⌋
  else if (1 : ℚ) / 2 < q - (⌊q⌋ : ℚ) then ⌊q⌋ + 1
  else if ⌊q⌋ % 2 = 0 then ⌊q⌋ else ⌊q⌋ + 1

/-- `np.sum(lab, axis=0)[j][k]` where the first axis has extent `h`:
lines 204–208 of the source use the image shape `h` for the grids. -/
def sumAxis0 (h : Nat) (lab : Vol) (j k : Nat) : ℚ :=
  ∑ i in Finset.range h, lab.data i j k

/-- `coords_x` of RandomCrop2D (line 207): with `np.meshgrid(.., indexing
defaulted to xy)` the first grid holds `j - (w-1)/2` at `[i,j,k]`; it is
multiplied by the axis-0 sums of the label (broadcast over `i`), averaged
over all `h*w*d` cells, shifted by `(h-1)/2` and rounded half-to-even. -/
def centroidX (h w d : Nat) (lab : Vol) : ℤ :=
  roundHalfEven
    ((∑ _i in Finset.range h, ∑ j in Finset.range w, ∑ k in Finset.range d,
        (((j : ℚ)) - ((w : ℚ) - 1) / 2) * sumAxis0 h lab j k)
      / ((h : ℚ) * (w : ℚ) * (d : ℚ)) + ((h : ℚ) - 1) / 2)

/-- `coords_y` of RandomCrop2D (line 208): the second meshgrid holds
`i - (h-1)/2` at `[i,j,k]`; averaged against the same weights, shifted by
`(w-1)/2` and rounded half-to-even. -/
def centroidY (h w d : Nat) (lab : Vol) : ℤ :=
  roundHalfEven
    ((∑ i in Finset.range h, ∑ j in Finset.range w, ∑ k in Finset.range d,
        (((i : ℚ)) - ((h : ℚ) - 1) / 2) * sumAxis0 h lab j k)
      / ((h : ℚ) * (w : ℚ) * (d : ℚ)) + ((w : ℚ) - 1) / 2)

/-- Centroid-mode offset selection (lines 202–216): `patch_y` is guarded
with `new_h` against `h` using `coords_x`, `patch_x` with `new_w` against
`w` using `coords_y`, exactly as in the source (including the axis swap). -/
def centroidPatch (h w d : Nat) (lab : Vol) (new_h new_w : Nat) : Nat × Nat :=
  let cx := centroidX h w d lab
  let cy := centroidY h w d lab
  let patch_y : Nat :=
    if cx - ((new_h / 2 : Nat) : ℤ) < 0 ∨ (h : ℤ) ≤ cx + ((new_h / 2 : Nat) : ℤ)
    then 0 else (cx - ((new_h / 2 : Nat) : ℤ)).toNat
  let patch_x : Nat :=
    if cy - ((new_w / 2 : Nat) : ℤ) < 0 ∨ (w : ℤ) ≤ cy + ((new_w / 2 : Nat) : ℤ)
    then 0 else (cy - ((new_w / 2 : Nat) : ℤ)).toNat
  (patch_x, patch_y)

/-- The padding stage of `RandomCrop2D.__call__` (lines 183–193): each of
the first two axes is padded when `new_i >= i` (conditions on the original
image shape), by `(new_i - i)//2 + 1` on each side, with `np.min(image)` as
fill for both image and label. -/
def padStage (new_h new_w : Nat) (img lab : Vol) : Vol × Vol :=
  let pad_value := img.vmin
  let img1 := if img.h ≤ new_h then padAxis0 img ((new_h - img.h) / 2 + 1) pad_value else img
  let lab1 := if img.h ≤ new_h then padAxis0 lab ((new_h - img.h) / 2 + 1) pad_value else lab
  let img2 := if img.w ≤ new_w then padAxis1 img1 ((new_w - img.w) / 2 + 1) pad_value else img1
  let lab2 := if img.w ≤ new_w then padAxis1 lab1 ((new_w - img.w) / 2 + 1) pad_value else lab1
  (img2, lab2)

/-- `RandomCrop2D.__call__` (lines 174–231).  `rx`, `ry` stand for the two
`np.random.randint(0, extent - new_extent)` draws of random mode; in
centroid mode the offsets are deterministic.  The third axis is never
padded nor cropped. -/
def randomCrop2D (output_size : Nat × Nat × Nat) (is_random : Bool)
    (rx ry : Nat) (sample : Sample) : Sample :=
  let new_h := output_size.1
  let new_w := output_size.2.1
  let pl := padStage new_h new_w sample.img sample.lab
  let p := if is_random then (rx, ry)
           else centroidPatch pl.1.h pl.1.w pl.1.d pl.2 new_h new_w
  Sample.mk (cropVol pl.1 p.1 p.2 new_h new_w) (cropVol pl.2 p.1 p.2 new_h new_w)
    sample.name sample.imgAff sample.segAff

/-- A 4D array, as produced by `np.expand_dims(v, 0)`. -/
structure Vol4 where
  c : Nat
  h : Nat
  w : Nat
  d : Nat
  data : Nat → Nat → Nat → Nat → ℚ

/-- `np.expand_dims(v, 0)`: a leading singleton channel axis. -/
def expandDims (v : Vol) : Vol4 :=
  Vol4.mk 1 v.h v.w v.d (fun _ i j k => v.data i j k)

/-- The sample returned by `ToTensor.__call__`. -/
structure TensorSample where
  img : Vol4
  lab : Vol4
  name : String
  imgAff : List (List ℚ)
  segAff : List (List ℚ)

/-- `ToTensor.__call__` (lines 238–251): expand dims, cast to float32
(identity in the rational model), pass name and affines through. -/
def toTensor (s : Sample) : TensorSample :=
  TensorSample.mk (expandDims s.img) (expandDims s.lab) s.name s.imgAff s.segAff

/-- The binarization of the label in `__getitem__` (lines 103–105):
normalize by own min/max with epsilon `1e-6` in the denominator, take the
absolute value, then threshold at `0.5`. -/
def binarize (v : Vol) : Vol :=
  Vol.mk v.h v.w v.d
    (fun i j k =>
      if (1 : ℚ) / 2 ≤ |(v.data i j k - v.vmin) / (v.vmax - v.vmin + 1 / 1000000)| then 1 else 0)

/-- The loader state: the parsed manifest rows (`self.data_file`), the
shuffle flag and the index array (`self.indices`). -/
structure LocalisationDataLoader where
  data_file : List (String × String)
  shuffle : Bool
  indices : List Nat

/-- `shuffle_indices` (lines 143–151): when shuffling, the index array
becomes the permutation `newIdx` drawn by `np.random.shuffle`; otherwise
it is reset to the identity `arange(len(data_file))`. -/
def shuffle_indices (L : LocalisationDataLoader) (newIdx : List Nat) :
    LocalisationDataLoader :=
  if L.shuffle then LocalisationDataLoader.mk L.data_file L.shuffle newIdx
  else LocalisationDataLoader.mk L.data_file L.shuffle (List.range L.data_file.length)

/-- The row-resolution step of `__getitem__` (lines 78–79): reshuffle,
then map the requested index through the index array. -/
def resolveRow (L : LocalisationDataLoader) (newIdx : List Nat) (item : Nat) :
    Option Nat :=
  (shuffle_indices L newIdx).indices.get? item

/-- One full pass `GetItem(0), …, GetItem(N-1)`: access `t` uses the
permutation `draws t` produced by that call's reshuffle. -/
def passRows (L : LocalisationDataLoader) (draws : Nat → List Nat) :
    List (Option Nat) :=
  (List.range L.data_file.length).map fun t => resolveRow L (draws t) t

/-- `augment_data` (lines 123–141): `choice` models
`np.random.choice([0,1,2,3])`; `Compose([to_affine, to_motion])` applies
the affine first, then the motion. -/
def augment_data {α : Type} (is_augment : Bool) (choice : Fin 4)
    (to_affine to_motion to_spike : α → α) (subject : α) : α :=
  if is_augment then
    if choice.val = 0 then to_affine subject
    else if choice.val = 1 then to_motion subject
    else if choice.val = 2 then to_spike subject
    else to_motion (to_affine subject)
  else subject

/-- Every in-range voxel of the volume is exactly `0` or `1`. -/
def vox01 (v : Vol) : Prop :=
  ∀ i j k, i < v.h → j < v.w → k < v.d → (v.data i j k = 0 ∨ v.data i j k = 1)

/-- Every in-range voxel of the volume satisfies the predicate `P`. -/
def voxP (P : ℚ → Prop) (v : Vol) : Prop :=
  ∀ i j k, i < v.h → j < v.w → k < v.d → P (v.data i j k)

/-- `__len__` (lines 67–72): the number of elements per epoch, the row
count of the parsed manifest. -/
def LocalisationDataLoader.len (L : LocalisationDataLoader) : Nat :=
  L.data_file.length

/-! ### Concrete inputs used in evaluations and witnesses -/

/-- A 6x3x1 all-zero image. -/
def imgC1 : Vol := Vol.mk 6 3 1 (fun _ _ _ => 0)

/-- A 6x3x1 binary label with mass in column `j = 2`, rows `i < 3`. -/
def labC1 : Vol := Vol.mk 6 3 1 (fun i j _ => if j = 2 ∧ i < 3 then 1 else 0)

/-- A non-square sample fed to the Spatial Resampler. -/
def sampleC1 : Sample := Sample.mk imgC1 labC1 "case" [] []

/-- A 64x64x40 image whose voxel value is its first coordinate. -/
def img64 : Vol := Vol.mk 64 64 40 (fun i _ _ => (i : ℚ))

/-- The 64x64x40 all-zero label mask of the C2 scenario. -/
def zLab64 : Vol := Vol.mk 64 64 40 (fun _ _ _ => 0)

/-- The C2 scenario sample: image shape (64,64,40), all-zero label. -/
def sample64 : Sample := Sample.mk img64 zLab64 "scan" [] []

/-- A 1x1x1 image whose single voxel (hence whose minimum) is `1/2`. -/
def imgC4 : Vol := Vol.mk 1 1 1 (fun _ _ _ => 1 / 2)

/-- A 1x1x1 binary label. -/
def labC4 : Vol := Vol.mk 1 1 1 (fun _ _ _ => 1)

/-- Sample whose image minimum is neither 0 nor 1. -/
def sampleC4 : Sample := Sample.mk imgC4 labC4 "half" [] []

/-- A two-row loader with shuffling enabled. -/
def loaderC3 : LocalisationDataLoader :=
  LocalisationDataLoader.mk [("a.nii.gz", "a_lab.nii.gz"), ("b.nii.gz", "b_lab.nii.gz")]
    true [0, 1]

/-- The same two-row manifest with shuffling disabled. -/
def loaderC3f : LocalisationDataLoader :=
  LocalisationDataLoader.mk [("a.nii.gz", "a_lab.nii.gz"), ("b.nii.gz", "b_lab.nii.gz")]
    false [0, 1]

/-- Per-access reshuffle draws: the identity permutation on the first
access, the swap on the second. -/
def drawsC3 : Nat → List Nat := fun t => if t = 0 then [0, 1] else [1, 0]

/-- A 1x1x1 all-zero image. -/
def imgW : Vol := Vol.mk 1 1 1 (fun _ _ _ => 0)

/-- A 1x1x1 all-one label. -/
def labW : Vol := Vol.mk 1 1 1 (fun _ _ _ => 1)

/-- A minimal well-formed sample. -/
def sampleW : Sample := Sample.mk imgW labW "unit" [] []

/-- A 2x2x1 all-zero volume (an empty mask). -/
def zVolW : Vol := Vol.mk 2 2 1 (fun _ _ _ => 0)

/-- A 3x3x1 all-zero image, strictly larger than a (2,2) target on both
axes, so no padding is triggered. -/
def imgW3 : Vol := Vol.mk 3 3 1 (fun _ _ _ => 0)

/-- A 3x3x1 binary label (the diagonal mask). -/
def labW3 : Vol := Vol.mk 3 3 1 (fun i j _ => if i = j then 1 else 0)

/-- A sample larger than the crop target on both axes. -/
def sampleW3 : Sample := Sample.mk imgW3 labW3 "unit3" [] []

/-! ### General lemmas about the embedded operations -/

theorem padAxis0_data (v : Vol) (p : Nat) (f : ℚ) (i j k : Nat) :
    (padAxis0 v p f).data i j k
      = if p ≤ i ∧ i < p + v.h then v.data (i - p) j k else f := rfl

theorem padAxis1_data (v : Vol) (p : Nat) (f : ℚ) (i j k : Nat) :
    (padAxis1 v p f).data i j k
      = if p ≤ j ∧ j < p + v.w then v.data i (j - p) k else f := rfl

theorem cropVol_data (v : Vol) (px py nh nw i j k : Nat) :
    (cropVol v px py nh nw).data i j k = v.data (i + px) (j + py) k := rfl

theorem padAxis0_fill (v : Vol) (p : Nat) (f : ℚ) (i j k : Nat) (hi : i < p) :
    (padAxis0 v p f).data i j k = f := by
  rw [padAxis0_data, if_neg]; omega

theorem padAxis1_fill (v : Vol) (p : Nat) (f : ℚ) (i j k : Nat) (hj : j < p) :
    (padAxis1 v p f).data i j k = f := by
  rw [padAxis1_data, if_neg]; omega

theorem padAxis1_fill_axis0 (v : Vol) (p q : Nat) (f g : ℚ) (i j k : Nat) (hi : i < q)
    (hv : ∀ i' j' k', i' < q → v.data i' j' k' = g) :
    (padAxis1 v p f).data i j k = if p ≤ j ∧ j < p + v.w then g else f := by
  rw [padAxis1_data]
  split_ifs with h
  · exact hv i (j - p) k hi
  · rfl

theorem padStage_img_h (new_h new_w : Nat) (img lab : Vol) :
    (padStage new_h new_w img lab).1.h
      = if img.h ≤ new_h then img.h + 2 * ((new_h - img.h) / 2 + 1) else img.h := by
  simp only [padStage, padAxis0, padAxis1]
  split_ifs <;> rfl

theorem padStage_img_w (new_h new_w : Nat) (img lab : Vol) :
    (padStage new_h new_w img lab).1.w
      = if img.w ≤ new_w then img.w + 2 * ((new_w - img.w) / 2 + 1) else img.w := by
  simp only [padStage, padAxis0, padAxis1]
  split_ifs <;> rfl

theorem padStage_lab_h (new_h new_w : Nat) (img lab : Vol) :
    (padStage new_h new_w img lab).2.h
      = if img.h ≤ new_h then lab.h + 2 * ((new_h - img.h) / 2 + 1) else lab.h := by
  simp only [padStage, padAxis0, padAxis1]
  split_ifs <;> rfl

theorem padStage_lab_w (new_h new_w : Nat) (img lab : Vol) :
    (padStage new_h new_w img lab).2.w
      = if img.w ≤ new_w then lab.w + 2 * ((new_w - img.w) / 2 + 1) else lab.w := by
  simp only [padStage, padAxis0, padAxis1]
  split_ifs <;> rfl

theorem padStage_img_d (new_h new_w : Nat) (img lab : Vol) :
    (padStage new_h new_w img lab).1.d = img.d := by
  simp only [padStage, padAxis0, padAxis1]
  split_ifs <;> rfl

theorem padStage_lab_d (new_h new_w : Nat) (img lab : Vol) :
    (padStage new_h new_w img lab).2.d = lab.d := by
  simp only [padStage, padAxis0, padAxis1]
  split_ifs <;> rfl

theorem padStage_fst (new_h new_w : Nat) (img lab : Vol) :
    (padStage new_h new_w img lab).1
      = (if img.w ≤ new_w then
          padAxis1 (if img.h ≤ new_h then padAxis0 img ((new_h - img.h) / 2 + 1) img.vmin
              else img)
            ((new_w - img.w) / 2 + 1) img.vmin
         else (if img.h ≤ new_h then padAxis0 img ((new_h - img.h) / 2 + 1) img.vmin
              else img)) := rfl

theorem padStage_snd (new_h new_w : Nat) (img lab : Vol) :
    (padStage new_h new_w img lab).2
      = (if img.w ≤ new_w then
          padAxis1 (if img.h ≤ new_h then padAxis0 lab ((new_h - img.h) / 2 + 1) img.vmin
              else lab)
            ((new_w - img.w) / 2 + 1) img.vmin
         else (if img.h ≤ new_h then padAxis0 lab ((new_h - img.h) / 2 + 1) img.vmin
              else lab)) := rfl

theorem randomCrop2D_random (os : Nat × Nat × Nat) (rx ry : Nat) (s : Sample) :
    randomCrop2D os true rx ry s =
      Sample.mk (cropVol (padStage os.1 os.2.1 s.img s.lab).1 rx ry os.1 os.2.1)
        (cropVol (padStage os.1 os.2.1 s.img s.lab).2 rx ry os.1 os.2.1)
        s.name s.imgAff s.segAff := rfl

theorem randomCrop2D_lab_eq (os : Nat × Nat × Nat) (b : Bool) (rx ry : Nat) (s : Sample) :
    ∃ px py, (randomCrop2D os b rx ry s).lab
      = cropVol (padStage os.1 os.2.1 s.img s.lab).2 px py os.1 os.2.1 := by
  cases b
  · exact ⟨_, _, rfl⟩
  · exact ⟨rx, ry, rfl⟩

theorem vox01_padAxis0 (v : Vol) (p : Nat) (f : ℚ) (hv : vox01 v) (hf : f = 0 ∨ f = 1) :
    vox01 (padAxis0 v p f) := by
  intro i j k hi hj hk
  rw [padAxis0_data]
  split_ifs with h
  · exact hv _ _ _ (by omega) hj hk
  · exact hf

theorem vox01_padAxis1 (v : Vol) (p : Nat) (f : ℚ) (hv : vox01 v) (hf : f = 0 ∨ f = 1) :
    vox01 (padAxis1 v p f) := by
  intro i j k hi hj hk
  rw [padAxis1_data]
  split_ifs with h
  · exact hv _ _ _ hi (by omega) hk
  · exact hf

theorem vox01_cropVol (v : Vol) (px py nh nw : Nat) (hv : vox01 v) :
    vox01 (cropVol v px py nh nw) := by
  intro i j k hi hj hk
  rw [cropVol_data]
  refine hv _ _ _ ?_ ?_ hk
  · simp only [cropVol] at hi; omega
  · simp only [cropVol] at hj; omega

theorem vox01_padStage_lab (new_h new_w : Nat) (img lab : Vol)
    (hv : vox01 lab) (hf : img.vmin = 0 ∨ img.vmin = 1) :
    vox01 (padStage new_h new_w img lab).2 := by
  rw [padStage_snd]
  split_ifs with hw hh hh
  · exact vox01_padAxis1 _ _ _ (vox01_padAxis0 _ _ _ hv hf) hf
  · exact vox01_padAxis1 _ _ _ hv hf
  · exact vox01_padAxis0 _ _ _ hv hf
  · exact hv

theorem padAxis0_pred (P : ℚ → Prop) (v : Vol) (p : Nat) (f : ℚ)
    (hv : voxP P v) (hf : P f) : voxP P (padAxis0 v p f) := by
  intro i j k hi hj hk
  rw [padAxis0_data]
  split_ifs with h
  · exact hv _ _ _ (by omega) hj hk
  · exact hf

theorem padAxis1_pred (P : ℚ → Prop) (v : Vol) (p : Nat) (f : ℚ)
    (hv : voxP P v) (hf : P f) : voxP P (padAxis1 v p f) := by
  intro i j k hi hj hk
  rw [padAxis1_data]
  split_ifs with h
  · exact hv _ _ _ hi (by omega) hk
  · exact hf

theorem cropVol_pred (P : ℚ → Prop) (v : Vol) (px py nh nw : Nat)
    (hv : voxP P v) : voxP P (cropVol v px py nh nw) := by
  intro i j k hi hj hk
  rw [cropVol_data]
  refine hv _ _ _ ?_ ?_ hk
  · simp only [cropVol] at hi; omega
  · simp only [cropVol] at hj; omega

theorem padStage_lab_pred (P : ℚ → Prop) (new_h new_w : Nat) (img lab : Vol)
    (hv : voxP P lab) (hf : P img.vmin) :
    voxP P (padStage new_h new_w img lab).2 := by
  rw [padStage_snd]
  split_ifs with hw hh hh
  · exact padAxis1_pred _ _ _ _ (padAxis0_pred _ _ _ _ hv hf) hf
  · exact padAxis1_pred _ _ _ _ hv hf
  · exact padAxis0_pred _ _ _ _ hv hf
  · exact hv

theorem padStage_no_pad (new_h new_w : Nat) (img lab : Vol)
    (hh : new_h < img.h) (hw : new_w < img.w) :
    padStage new_h new_w img lab = (img, lab) := by
  have h1 : ¬ img.h ≤ new_h := by omega
  have h2 : ¬ img.w ≤ new_w := by omega
  simp only [padStage, if_neg h1, if_neg h2]

theorem foldr_min_all_eq (l : List ℚ) (a : ℚ) (h : ∀ x ∈ l, x = a) :
    l.foldr min a = a := by
  induction l with
  | nil => rfl
  | cons y t ih =>
      rw [List.foldr_cons, h y (by simp), ih (fun x hx => h x (by simp [hx]))]
      exact min_self a

theorem foldr_max_all_eq (l : List ℚ) (a : ℚ) (h : ∀ x ∈ l, x = a) :
    l.foldr max a = a := by
  induction l with
  | nil => rfl
  | cons y t ih =>
      rw [List.foldr_cons, h y (by simp), ih (fun x hx => h x (by simp [hx]))]
      exact max_self a

theorem entries_all_eq (v : Vol) (c : ℚ)
    (hc : ∀ i j k, i < v.h → j < v.w → k < v.d → v.data i j k = c) :
    ∀ x ∈ v.entries, x = c := by
  intro x hx
  simp only [Vol.entries, List.mem_flatMap, List.mem_map, List.mem_range] at hx
  obtain ⟨i, hi, j, hj, k, hk, rfl⟩ := hx
  exact hc i j k hi hj hk

theorem vmin_const (v : Vol) (c : ℚ) (h0 : 0 < v.h) (w0 : 0 < v.w) (d0 : 0 < v.d)
    (hc : ∀ i j k, i < v.h → j < v.w → k < v.d → v.data i j k = c) : v.vmin = c := by
  unfold Vol.vmin
  rw [hc 0 0 0 h0 w0 d0]
  exact foldr_min_all_eq _ _ (entries_all_eq v c hc)

theorem vmax_const (v : Vol) (c : ℚ) (h0 : 0 < v.h) (w0 : 0 < v.w) (d0 : 0 < v.d)
    (hc : ∀ i j k, i < v.h → j < v.w → k < v.d → v.data i j k = c) : v.vmax = c := by
  unfold Vol.vmax
  rw [hc 0 0 0 h0 w0 d0]
  exact foldr_max_all_eq _ _ (entries_all_eq v c hc)

theorem range_map_get {α : Type} (l : List α) :
    (List.range l.length).map (fun t => l.get? t) = l.map some := by
  induction l with
  | nil => rfl
  | cons a t ih =>
      rw [List.length_cons, List.range_succ_eq_map, List.map_cons, List.map_map]
      rw [show ((fun x => (a :: t).get? x) ∘ Nat.succ) = fun x => t.get? x from
        funext fun x => rfl]
      rw [ih]
      rfl

theorem resolveRow_shuffle_true (L : LocalisationDataLoader) (newIdx : List Nat)
    (item : Nat) (hs : L.shuffle = true) :
    resolveRow L newIdx item = newIdx.get? item := by
  simp [resolveRow, shuffle_indices, hs]

theorem resolveRow_shuffle_false (L : LocalisationDataLoader) (newIdx : List Nat)
    (item : Nat) (hs : L.shuffle = false) :
    resolveRow L newIdx item = (List.range L.data_file.length).get? item := by
  simp [resolveRow, shuffle_indices, hs]

theorem passRows_identity (L : LocalisationDataLoader) (draws : Nat → List Nat)
    (hs : L.shuffle = false) :
    passRows L draws = (List.range L.data_file.length).map some := by
  simp only [passRows]
  have hmg := range_map_get (List.range L.data_file.length)
  rw [List.length_range] at hmg
  calc (List.range L.data_file.length).map (fun t => resolveRow L (draws t) t)
      = (List.range L.data_file.length).map
          (fun t => (List.range L.data_file.length).get? t) :=
        List.map_congr_left (fun t _ => resolveRow_shuffle_false L (draws t) t hs)
    _ = (List.range L.data_file.length).map some := hmg

/-! ### Evaluation lemmas for the concrete inputs -/

theorem centroidX_labC1 : centroidX 6 3 1 labC1 = 4 := by
  simp only [centroidX, sumAxis0, labC1, Finset.sum_range_succ, Finset.sum_range_zero]
  norm_num [roundHalfEven]

theorem centroidY_labC1 : centroidY 6 3 1 labC1 = 1 := by
  simp only [centroidY, sumAxis0, labC1, Finset.sum_range_succ, Finset.sum_range_zero]
  norm_num [roundHalfEven]

theorem centroidPatch_labC1 : centroidPatch 6 3 1 labC1 2 2 = (0, 3) := by
  simp only [centroidPatch, centroidX_labC1, centroidY_labC1]
  decide

theorem padStage_C1 : padStage 2 2 imgC1 labC1 = (imgC1, labC1) := by
  simp [padStage, imgC1, labC1]

theorem centroidPatch_zLab64 : centroidPatch 64 64 40 zLab64 32 32 = (16, 16) := by
  have hx : centroidX 64 64 40 zLab64 = 32 := by
    simp only [centroidX, sumAxis0, zLab64, Finset.sum_const_zero, mul_zero]
    norm_num [roundHalfEven]
  have hy : centroidY 64 64 40 zLab64 = 32 := by
    simp only [centroidY, sumAxis0, zLab64, Finset.sum_const_zero, mul_zero]
    norm_num [roundHalfEven]
  simp only [centroidPatch, hx, hy]
  decide

theorem padStage_64 : padStage 32 32 img64 zLab64 = (img64, zLab64) := by
  simp [padStage, img64, zLab64]

theorem vmin_imgC4 : imgC4.vmin = 1 / 2 := by
  simp [Vol.vmin, Vol.entries, imgC4, List.range_succ]

theorem vmin_imgW : imgW.vmin = 0 := by
  simp [Vol.vmin, Vol.entries, imgW, List.range_succ]

theorem vmin_imgW3 : imgW3.vmin = 0 := by
  simp [Vol.vmin, Vol.entries, imgW3, List.range_succ]

/-! ### The claims -/

/-- C1: the claim states that in both offset modes the Spatial Resampler
returns image and label with first two axes exactly `(th, tw)` and depth
equal to the (post-padding) source depth.  The code violates this in
centroid mode: `patch_y` is computed from `coords_x` and guarded with
`new_h` against the first-axis extent `h`, but is then used as the offset
of the second axis (and symmetrically for `patch_x`), so on the non-square
sample of shape `(6,3,1)` with target `(2,2,1)` the offsets come out as
`(0,3)` and the numpy slice `[3:5]` of the length-3 second axis silently
truncates: the output second-axis extent is 0, not 2. -/
theorem C1_centroid_crop_shape_bug_eval :
    (randomCrop2D (2, 2, 1) false 0 0 sampleC1).img.h = 2 ∧
    (randomCrop2D (2, 2, 1) false 0 0 sampleC1).img.w = 0 ∧
    (randomCrop2D (2, 2, 1) false 0 0 sampleC1).lab.w = 0 ∧
    (randomCrop2D (2, 2, 1) false 0 0 sampleC1).img.d = 1 ∧
    (randomCrop2D (2, 2, 1) false 0 0 sampleC1).img.w ≠ 2 := by
  simp only [randomCrop2D, sampleC1, padStage_C1]
  simp only [imgC1]
  simp only [centroidPatch_labC1]
  simp [cropVol, labC1]

/-- C2: counterexample to the claim that in centroid mode an all-zero
64x64x40 label yields offsets exactly 0 on both axes and the crop
`[0:32, 0:32, 0:40]`.  The centroid of the empty mask evaluates to the
volume centre (`np.round(31.5) = 32`, half to even), the bounds guard
passes, and the offsets are `(16,16)`; the voxel at the origin of the
output is the source voxel `(16,16,0)`, not `(0,0,0)`. -/
theorem C2_empty_mask_offset_counterexample :
    centroidPatch 64 64 40 zLab64 32 32 ≠ (0, 0) ∧
    (randomCrop2D (32, 32, 40) false 0 0 sample64).img.data 0 0 0 = 16 ∧
    sample64.img.data 0 0 0 = 0 := by
  refine ⟨by rw [centroidPatch_zLab64]; decide, ?_, by simp [sample64, img64]⟩
  simp only [randomCrop2D, sample64, padStage_64]
  simp only [img64]
  simp only [centroidPatch_zLab64]
  simp [cropVol, img64]

/-- C2 (amended): in centroid mode, for an image of shape (64,64,40), an
all-zero label mask and target size (32,32,40), the selected offsets are
exactly 16 on both of the first two axes — the empty-mask centroid
evaluates to the volume centre and the centred window fits, so the
fallback to 0 is not taken — producing the deterministic centre crop
`[16:48, 16:48, 0:40]` of both image and label. -/
theorem C2_empty_mask_center_crop :
    centroidPatch 64 64 40 zLab64 32 32 = (16, 16) ∧
    (randomCrop2D (32, 32, 40) false 0 0 sample64).img.h = 32 ∧
    (randomCrop2D (32, 32, 40) false 0 0 sample64).img.w = 32 ∧
    (randomCrop2D (32, 32, 40) false 0 0 sample64).img.d = 40 ∧
    (randomCrop2D (32, 32, 40) false 0 0 sample64).lab.h = 32 ∧
    (randomCrop2D (32, 32, 40) false 0 0 sample64).lab.w = 32 ∧
    (randomCrop2D (32, 32, 40) false 0 0 sample64).lab.d = 40 ∧
    (randomCrop2D (32, 32, 40) false 0 0 sample64).img.data
      = (fun i j k => sample64.img.data (i + 16) (j + 16) k) ∧
    (randomCrop2D (32, 32, 40) false 0 0 sample64).lab.data
      = (fun i j k => sample64.lab.data (i + 16) (j + 16) k) := by
  refine ⟨centroidPatch_zLab64, ?_⟩
  simp only [randomCrop2D, sample64, padStage_64]
  simp only [img64]
  simp only [centroidPatch_zLab64]
  simp [cropVol, zLab64]

/-- C3: counterexample to the claim that with shuffling enabled a full
pass `GetItem(0), GetItem(1)` over a 2-row manifest resolves each row
exactly once.  Because `__getitem__` reshuffles the index permutation
before every access, two valid reshuffle draws (the identity, then the
swap) make both accesses resolve manifest row 0; the pass is not a
permutation of the rows. -/
theorem C3_reshuffled_pass_counterexample :
    (drawsC3 0).Perm (List.range loaderC3.data_file.length) ∧
    (drawsC3 1).Perm (List.range loaderC3.data_file.length) ∧
    loaderC3.shuffle = true ∧
    passRows loaderC3 drawsC3 = [some 0, some 0] ∧
    ¬ (passRows loaderC3 drawsC3).Perm
        ((List.range loaderC3.data_file.length).map some) := by
  have hrange : List.range loaderC3.data_file.length = [0, 1] := by
    simp [loaderC3, List.range_succ]
  have hd1 : drawsC3 1 = [1, 0] := rfl
  have hpass : passRows loaderC3 drawsC3 = [some 0, some 0] := by
    simp [passRows, resolveRow, shuffle_indices, loaderC3, drawsC3, List.range_succ]
  refine ⟨?_, ?_, rfl, hpass, ?_⟩
  · rw [hrange]; exact List.Perm.refl _
  · rw [hd1, hrange]; exact List.Perm.swap 0 1 []
  · intro hcontra
    have hmem : some 1 ∈ passRows loaderC3 drawsC3 := by
      refine hcontra.mem_iff.mpr ?_
      rw [hrange]
      simp
    rw [hpass] at hmem
    simp at hmem

/-- C3 (amended): a full pass `GetItem(0), …, GetItem(N-1)` resolves each
manifest row exactly once — the collected rows are a permutation of the
rows — provided the index permutation is fixed across the pass: either
shuffling is disabled (identity permutation on every access), or every
per-access reshuffle yields the same permutation of `[0, N)`.  With
independent reshuffles before each access this bijection property fails
(see the counterexample). -/
theorem C3_fixed_permutation_pass_bijection (L : LocalisationDataLoader)
    (draws : Nat → List Nat)
    (hd : L.shuffle = false ∨
      ∃ q, q.Perm (List.range L.data_file.length) ∧ ∀ t, draws t = q) :
    (passRows L draws).Perm ((List.range L.data_file.length).map some) := by
  rcases hd with hs | ⟨q, hq, hdr⟩
  · rw [passRows_identity L draws hs]
  · cases hs : L.shuffle with
    | false => rw [passRows_identity L draws hs]
    | true =>
        have hlen : q.length = L.data_file.length := by
          rw [hq.length_eq, List.length_range]
        have hpass : passRows L draws = q.map some := by
          simp only [passRows]
          calc (List.range L.data_file.length).map (fun t => resolveRow L (draws t) t)
              = (List.range L.data_file.length).map (fun t => q.get? t) := by
                refine List.map_congr_left (fun t _ => ?_)
                rw [hdr t]
                exact resolveRow_shuffle_true L q t hs
            _ = q.map some := by rw [← hlen, range_map_get]
        rw [hpass]
        exact hq.map some

/-- C3 witness: the amended bijection theorem applied to the concrete
two-row loader with shuffling disabled. -/
theorem C3_fixed_permutation_pass_bijection_witness :
    loaderC3f.shuffle = false ∧
    (passRows loaderC3f drawsC3).Perm
      ((List.range loaderC3f.data_file.length).map some) :=
  ⟨rfl, C3_fixed_permutation_pass_bijection loaderC3f drawsC3 (Or.inl rfl)⟩

/-- C4: counterexample to the claim that every label array output by the
pipeline, including after the RandomCrop2D post-transform, has every voxel
exactly 0.0 or 1.0.  On a sample whose label is {0,1}-valued but whose
image minimum is 1/2, the crop's padding step fills the label border with
the image's minimum, so the output label holds the voxel value 1/2. -/
theorem C4_pad_fill_counterexample :
    vox01 sampleC4.lab ∧
    0 < (randomCrop2D (3, 3, 1) true 0 0 sampleC4).lab.h ∧
    0 < (randomCrop2D (3, 3, 1) true 0 0 sampleC4).lab.w ∧
    0 < (randomCrop2D (3, 3, 1) true 0 0 sampleC4).lab.d ∧
    (randomCrop2D (3, 3, 1) true 0 0 sampleC4).lab.data 0 0 0 = 1 / 2 ∧
    ¬ vox01 ((randomCrop2D (3, 3, 1) true 0 0 sampleC4).lab) := by
  have hdata : (randomCrop2D (3, 3, 1) true 0 0 sampleC4).lab.data 0 0 0 = 1 / 2 := by
    rw [randomCrop2D_random]
    simp only [cropVol_data]
    rw [padStage_snd]
    norm_num [sampleC4, imgC4, labC4]
    rw [padAxis1_fill _ _ _ _ _ _ (by norm_num [padAxis0])]
    exact vmin_imgC4
  have hh : 0 < (randomCrop2D (3, 3, 1) true 0 0 sampleC4).lab.h := by
    rw [randomCrop2D_random]
    simp only [cropVol]
    rw [padStage_lab_h]
    norm_num [sampleC4, imgC4, labC4]
  have hw : 0 < (randomCrop2D (3, 3, 1) true 0 0 sampleC4).lab.w := by
    rw [randomCrop2D_random]
    simp only [cropVol]
    rw [padStage_lab_w]
    norm_num [sampleC4, imgC4, labC4]
  have hd : 0 < (randomCrop2D (3, 3, 1) true 0 0 sampleC4).lab.d := by
    rw [randomCrop2D_random]
    simp only [cropVol]
    rw [padStage_lab_d]
    norm_num [sampleC4, labC4]
  refine ⟨fun _ _ _ _ _ _ => Or.inr rfl, hh, hw, hd, hdata, ?_⟩
  intro hcontra
  have := hcontra 0 0 0 hh hw hd
  rw [hdata] at this
  rcases this with h | h <;> norm_num at h

/-- C4 (amended): the binarization step makes every voxel of the label
assembled by GetItem exactly 0.0 or 1.0, and RandomCrop2D preserves the
{0,1} property of the label except for voxels introduced by padding, which
are filled with the image's minimum — every output voxel is either the
image minimum or 0.0 or 1.0; whenever no padding occurs (target strictly
below both of the first two extents, arbitrary image minimum), or the
image minimum is itself 0.0 or 1.0, every voxel of the cropped label is
exactly 0.0 or 1.0. -/
theorem C4_label_binary_preservation (raw : Vol) (os : Nat × Nat × Nat) (b : Bool)
    (rx ry : Nat) (s : Sample) (hlab : vox01 s.lab) :
    vox01 (binarize raw) ∧
    voxP (fun x => x = s.img.vmin ∨ x = 0 ∨ x = 1) ((randomCrop2D os b rx ry s).lab) ∧
    (os.1 < s.img.h → os.2.1 < s.img.w → vox01 ((randomCrop2D os b rx ry s).lab)) ∧
    (s.img.vmin = 0 ∨ s.img.vmin = 1 → vox01 ((randomCrop2D os b rx ry s).lab)) := by
  obtain ⟨px, py, heq⟩ := randomCrop2D_lab_eq os b rx ry s
  refine ⟨?_, ?_, ?_, ?_⟩
  · intro i j k _ _ _
    simp only [binarize]
    split_ifs
    · exact Or.inr rfl
    · exact Or.inl rfl
  · rw [heq]
    refine cropVol_pred _ _ _ _ _ _ ?_
    refine padStage_lab_pred _ _ _ _ _ ?_ (Or.inl rfl)
    intro i j k hi hj hk
    rcases hlab i j k hi hj hk with h | h
    · exact Or.inr (Or.inl h)
    · exact Or.inr (Or.inr h)
  · intro hph hpw
    rw [heq, congrArg Prod.snd (padStage_no_pad os.1 os.2.1 s.img s.lab hph hpw)]
    exact vox01_cropVol _ _ _ _ _ hlab
  · intro hmin
    rw [heq]
    exact vox01_cropVol _ _ _ _ _ (vox01_padStage_lab _ _ _ _ hlab hmin)

/-- C4 witness: the amended theorem applied to a 3x3x1 sample with a
binary diagonal label and image minimum 0, target (2,2,1): no padding is
triggered (both no-padding hypotheses hold) and the image minimum also
lies in {0,1}, so all four parts of the conclusion are discharged. -/
theorem C4_label_binary_preservation_witness :
    vox01 sampleW3.lab ∧
    (2 : Nat) < sampleW3.img.h ∧ (2 : Nat) < sampleW3.img.w ∧
    (sampleW3.img.vmin = 0 ∨ sampleW3.img.vmin = 1) ∧
    (vox01 (binarize labW3) ∧
     voxP (fun x => x = sampleW3.img.vmin ∨ x = 0 ∨ x = 1)
       ((randomCrop2D (2, 2, 1) true 0 0 sampleW3).lab) ∧
     vox01 ((randomCrop2D (2, 2, 1) true 0 0 sampleW3).lab) ∧
     vox01 ((randomCrop2D (2, 2, 1) true 0 0 sampleW3).lab)) := by
  have hlab : vox01 sampleW3.lab := by
    intro i j k _ _ _
    by_cases h : i = j <;> simp [sampleW3, labW3, h]
  have hh : (2 : Nat) < sampleW3.img.h := by norm_num [sampleW3, imgW3]
  have hw : (2 : Nat) < sampleW3.img.w := by norm_num [sampleW3, imgW3]
  have hmin : sampleW3.img.vmin = 0 ∨ sampleW3.img.vmin = 1 := Or.inl vmin_imgW3
  have hmain := C4_label_binary_preservation labW3 (2, 2, 1) true 0 0 sampleW3 hlab
  exact ⟨hlab, hh, hw, hmin, hmain.1, hmain.2.1, hmain.2.2.1 hh hw, hmain.2.2.2 hmin⟩

/-- C5: whenever a first- or second-axis extent of the input is ≤ the
target size along that axis, RandomCrop2D pads that axis symmetrically by
`(target - extent)//2 + 1` voxels on each side, filling both image and
label with the image's minimum, and the post-padding extent along every
padded axis is ≥ (in fact >) the target size along that axis. -/
theorem C5_pad_policy (s : Sample) (new_h new_w : Nat) :
    (s.img.h ≤ new_h →
      (padStage new_h new_w s.img s.lab).1.h = s.img.h + 2 * ((new_h - s.img.h) / 2 + 1) ∧
      (padStage new_h new_w s.img s.lab).2.h = s.lab.h + 2 * ((new_h - s.img.h) / 2 + 1) ∧
      new_h ≤ (padStage new_h new_w s.img s.lab).1.h ∧
      (∀ i j k, i < (new_h - s.img.h) / 2 + 1 →
        (padStage new_h new_w s.img s.lab).1.data i j k = s.img.vmin ∧
        (padStage new_h new_w s.img s.lab).2.data i j k = s.img.vmin)) ∧
    (s.img.w ≤ new_w →
      (padStage new_h new_w s.img s.lab).1.w = s.img.w + 2 * ((new_w - s.img.w) / 2 + 1) ∧
      (padStage new_h new_w s.img s.lab).2.w = s.lab.w + 2 * ((new_w - s.img.w) / 2 + 1) ∧
      new_w ≤ (padStage new_h new_w s.img s.lab).1.w ∧
      (∀ i j k, j < (new_w - s.img.w) / 2 + 1 →
        (padStage new_h new_w s.img s.lab).1.data i j k = s.img.vmin ∧
        (padStage new_h new_w s.img s.lab).2.data i j k = s.img.vmin)) := by
  constructor
  · intro hh
    refine ⟨?_, ?_, ?_, ?_⟩
    · rw [padStage_img_h, if_pos hh]
    · rw [padStage_lab_h, if_pos hh]
    · rw [padStage_img_h, if_pos hh]; omega
    · intro i j k hi
      rw [padStage_fst, padStage_snd]
      constructor
      · split_ifs with hw
        · exact padAxis1_fill_axis0 _ _ _ _ _ _ _ _ hi
            (fun i' j' k' hi' => padAxis0_fill _ _ _ _ _ _ hi') |>.trans
              (by split_ifs <;> rfl)
        · exact padAxis0_fill _ _ _ _ _ _ hi
      · split_ifs with hw
        · exact padAxis1_fill_axis0 _ _ _ _ _ _ _ _ hi
            (fun i' j' k' hi' => padAxis0_fill _ _ _ _ _ _ hi') |>.trans
              (by split_ifs <;> rfl)
        · exact padAxis0_fill _ _ _ _ _ _ hi
  · intro hw
    refine ⟨?_, ?_, ?_, ?_⟩
    · rw [padStage_img_w, if_pos hw]
    · rw [padStage_lab_w, if_pos hw]
    · rw [padStage_img_w, if_pos hw]; omega
    · intro i j k hj
      rw [padStage_fst, padStage_snd]
      rw [if_pos hw, if_pos hw]
      exact ⟨padAxis1_fill _ _ _ _ _ _ hj, padAxis1_fill _ _ _ _ _ _ hj⟩

/-- C5 witness: the padding policy evaluated on the 1x1x1 sample with
target 3 on both axes. -/
theorem C5_pad_policy_witness :
    sampleW.img.h ≤ 3 ∧ sampleW.img.w ≤ 3 ∧
    ((padStage 3 3 sampleW.img sampleW.lab).1.h
        = sampleW.img.h + 2 * ((3 - sampleW.img.h) / 2 + 1) ∧
      (padStage 3 3 sampleW.img sampleW.lab).2.h
        = sampleW.lab.h + 2 * ((3 - sampleW.img.h) / 2 + 1) ∧
      3 ≤ (padStage 3 3 sampleW.img sampleW.lab).1.h ∧
      (∀ i j k, i < (3 - sampleW.img.h) / 2 + 1 →
        (padStage 3 3 sampleW.img sampleW.lab).1.data i j k = sampleW.img.vmin ∧
        (padStage 3 3 sampleW.img sampleW.lab).2.data i j k = sampleW.img.vmin)) ∧
    ((padStage 3 3 sampleW.img sampleW.lab).1.w
        = sampleW.img.w + 2 * ((3 - sampleW.img.w) / 2 + 1) ∧
      (padStage 3 3 sampleW.img sampleW.lab).2.w
        = sampleW.lab.w + 2 * ((3 - sampleW.img.w) / 2 + 1) ∧
      3 ≤ (padStage 3 3 sampleW.img sampleW.lab).1.w ∧
      (∀ i j k, j < (3 - sampleW.img.w) / 2 + 1 →
        (padStage 3 3 sampleW.img sampleW.lab).1.data i j k = sampleW.img.vmin ∧
        (padStage 3 3 sampleW.img sampleW.lab).2.data i j k = sampleW.img.vmin)) := by
  have h1 : sampleW.img.h ≤ 3 := by norm_num [sampleW, imgW]
  have h2 : sampleW.img.w ≤ 3 := by norm_num [sampleW, imgW]
  exact ⟨h1, h2, (C5_pad_policy sampleW 3 3).1 h1, (C5_pad_policy sampleW 3 3).2 h2⟩

/-- C6: when `is_augment` is false, `augment_data` returns the subject
unchanged; when it is true, the draw has exactly four outcomes and each is
dispatched to the corresponding transform of the whole subject:
affine-only, motion-only, spike-only, or affine followed by motion. -/
theorem C6_augment_dispatch {α : Type} (fa fm fs : α → α) (s : α) (c : Fin 4) :
    augment_data false c fa fm fs s = s ∧
    augment_data true 0 fa fm fs s = fa s ∧
    augment_data true 1 fa fm fs s = fm s ∧
    augment_data true 2 fa fm fs s = fs s ∧
    augment_data true 3 fa fm fs s = fm (fa s) ∧
    (augment_data true c fa fm fs s = fa s ∨ augment_data true c fa fm fs s = fm s ∨
     augment_data true c fa fm fs s = fs s ∨ augment_data true c fa fm fs s = fm (fa s)) := by
  refine ⟨rfl, rfl, rfl, rfl, rfl, ?_⟩
  fin_cases c
  · exact Or.inl rfl
  · exact Or.inr (Or.inl rfl)
  · exact Or.inr (Or.inr (Or.inl rfl))
  · exact Or.inr (Or.inr (Or.inr rfl))

/-- C7: for every manifest, `__len__` returns the manifest row count, and
every index in `[0, N)` maps through the length-N index permutation to a
manifest row in bounds: `resolveRow` yields a row index `r < N` and the
manifest lookup at `r` succeeds. -/
theorem C7_size_and_index_valid (L : LocalisationDataLoader) (newIdx : List Nat)
    (item : Nat) (hperm : newIdx.Perm (List.range L.data_file.length))
    (hitem : item < L.data_file.length) :
    L.len = L.data_file.length ∧
    ∃ r, resolveRow L newIdx item = some r ∧ r < L.data_file.length ∧
      L.data_file.get? r ≠ none := by
  refine ⟨rfl, ?_⟩
  cases hs : L.shuffle with
  | false =>
      refine ⟨item, ?_, hitem, ?_⟩
      · rw [resolveRow_shuffle_false L newIdx item hs]
        exact List.get?_range hitem
      · rw [ne_eq, List.get?_eq_none]
        omega
  | true =>
      have hlen : item < newIdx.length := by
        rw [hperm.length_eq, List.length_range]
        exact hitem
      have hmem : newIdx.get ⟨item, hlen⟩ ∈ newIdx := List.get_mem newIdx item hlen
      have hlt := List.mem_range.mp (hperm.mem_iff.mp hmem)
      refine ⟨newIdx.get ⟨item, hlen⟩, ?_, hlt, ?_⟩
      · rw [resolveRow_shuffle_true L newIdx item hs]
        exact List.get?_eq_get hlen
      · rw [ne_eq, List.get?_eq_none]
        omega

/-- C7 witness: the theorem applied to the two-row shuffled loader, the
swap permutation, and index 0. -/
theorem C7_size_and_index_valid_witness :
    [1, 0].Perm (List.range loaderC3.data_file.length) ∧
    0 < loaderC3.data_file.length ∧
    (loaderC3.len = loaderC3.data_file.length ∧
     ∃ r, resolveRow loaderC3 [1, 0] 0 = some r ∧ r < loaderC3.data_file.length ∧
       loaderC3.data_file.get? r ≠ none) := by
  have hp : [1, 0].Perm (List.range loaderC3.data_file.length) := by
    have hrange : List.range loaderC3.data_file.length = [0, 1] := by
      simp [loaderC3, List.range_succ]
    rw [hrange]
    exact List.Perm.swap 0 1 []
  have h0 : 0 < loaderC3.data_file.length := by norm_num [loaderC3]
  exact ⟨hp, h0, C7_size_and_index_valid loaderC3 [1, 0] 0 hp h0⟩

/-- C8: RandomCrop2D and ToTensor each return a sample whose name and both
affines are exactly those of their input; only the image and label fields
are rebuilt (ToTensor replaces them by their channel-expanded versions). -/
theorem C8_name_affine_passthrough (os : Nat × Nat × Nat) (b : Bool) (rx ry : Nat)
    (s : Sample) :
    (randomCrop2D os b rx ry s).name = s.name ∧
    (randomCrop2D os b rx ry s).imgAff = s.imgAff ∧
    (randomCrop2D os b rx ry s).segAff = s.segAff ∧
    (toTensor s).name = s.name ∧
    (toTensor s).imgAff = s.imgAff ∧
    (toTensor s).segAff = s.segAff ∧
    (toTensor s).img = expandDims s.img ∧
    (toTensor s).lab = expandDims s.lab :=
  ⟨rfl, rfl, rfl, rfl, rfl, rfl, rfl, rfl⟩

/-- C9: for every input sample (with label and image sharing their first
two extents), the padding stage leaves both of the first two axes strictly
larger than the corresponding target, so the random-mode uniform draw
ranges `[0, h - th)` and `[0, w - tw)` are non-empty; and for every draw
in range, the crop window lies fully inside the padded volume and the
random-mode output has first two axes exactly `(th, tw)` and full padded
depth, for image and label alike. -/
theorem C9_random_mode_safe (s : Sample) (new_h new_w new_d : Nat)
    (hlh : s.lab.h = s.img.h) (hlw : s.lab.w = s.img.w) :
    new_h < (padStage new_h new_w s.img s.lab).1.h ∧
    new_w < (padStage new_h new_w s.img s.lab).1.w ∧
    0 < (padStage new_h new_w s.img s.lab).1.h - new_h ∧
    0 < (padStage new_h new_w s.img s.lab).1.w - new_w ∧
    ∀ rx ry, rx < (padStage new_h new_w s.img s.lab).1.h - new_h →
      ry < (padStage new_h new_w s.img s.lab).1.w - new_w →
      rx + new_h < (padStage new_h new_w s.img s.lab).1.h ∧
      ry + new_w < (padStage new_h new_w s.img s.lab).1.w ∧
      (randomCrop2D (new_h, new_w, new_d) true rx ry s).img.h = new_h ∧
      (randomCrop2D (new_h, new_w, new_d) true rx ry s).img.w = new_w ∧
      (randomCrop2D (new_h, new_w, new_d) true rx ry s).img.d
        = (padStage new_h new_w s.img s.lab).1.d ∧
      (randomCrop2D (new_h, new_w, new_d) true rx ry s).lab.h = new_h ∧
      (randomCrop2D (new_h, new_w, new_d) true rx ry s).lab.w = new_w := by
  have h1 := padStage_img_h new_h new_w s.img s.lab
  have h2 := padStage_img_w new_h new_w s.img s.lab
  have h3 := padStage_lab_h new_h new_w s.img s.lab
  have h4 := padStage_lab_w new_h new_w s.img s.lab
  have hh : new_h < (padStage new_h new_w s.img s.lab).1.h := by
    rw [h1]; split_ifs <;> omega
  have hw : new_w < (padStage new_h new_w s.img s.lab).1.w := by
    rw [h2]; split_ifs <;> omega
  have hlabh : (padStage new_h new_w s.img s.lab).2.h
      = (padStage new_h new_w s.img s.lab).1.h := by
    rw [h1, h3, hlh]
  have hlabw : (padStage new_h new_w s.img s.lab).2.w
      = (padStage new_h new_w s.img s.lab).1.w := by
    rw [h2, h4, hlw]
  refine ⟨hh, hw, by omega, by omega, ?_⟩
  intro rx ry hrx hry
  rw [randomCrop2D_random]
  simp only [cropVol]
  refine ⟨by omega, by omega, by omega, by omega, trivial, by omega, by omega⟩

/-- C9 witness: the random-mode safety theorem applied to the 1x1x1 sample
with target (2,2,1) and the draw (0,0). -/
theorem C9_random_mode_safe_witness :
    sampleW.lab.h = sampleW.img.h ∧ sampleW.lab.w = sampleW.img.w ∧
    0 < (padStage 2 2 sampleW.img sampleW.lab).1.h - 2 ∧
    0 < (padStage 2 2 sampleW.img sampleW.lab).1.w - 2 ∧
    (0 + 2 < (padStage 2 2 sampleW.img sampleW.lab).1.h ∧
     0 + 2 < (padStage 2 2 sampleW.img sampleW.lab).1.w ∧
     (randomCrop2D (2, 2, 1) true 0 0 sampleW).img.h = 2 ∧
     (randomCrop2D (2, 2, 1) true 0 0 sampleW).img.w = 2 ∧
     (randomCrop2D (2, 2, 1) true 0 0 sampleW).img.d
       = (padStage 2 2 sampleW.img sampleW.lab).1.d ∧
     (randomCrop2D (2, 2, 1) true 0 0 sampleW).lab.h = 2 ∧
     (randomCrop2D (2, 2, 1) true 0 0 sampleW).lab.w = 2) := by
  have hA : 0 < (padStage 2 2 sampleW.img sampleW.lab).1.h - 2 := by
    rw [padStage_img_h]
    norm_num [sampleW, imgW]
  have hB : 0 < (padStage 2 2 sampleW.img sampleW.lab).1.w - 2 := by
    rw [padStage_img_w]
    norm_num [sampleW, imgW]
  exact ⟨rfl, rfl, hA, hB,
    (C9_random_mode_safe sampleW 2 2 1 rfl rfl).2.2.2.2 0 0 hA hB⟩

/-- C10: for every volume whose in-range voxels are all equal (in
particular an all-zero mask), the binarization denominator
`max - min + 1e-6` equals the positive epsilon `1e-6` — no division by
zero — and every in-range voxel of the binarized volume is exactly 0. -/
theorem C10_constant_label_binarize_zero (v : Vol) (c : ℚ) (h0 : 0 < v.h)
    (w0 : 0 < v.w) (d0 : 0 < v.d)
    (hc : ∀ i j k, i < v.h → j < v.w → k < v.d → v.data i j k = c) :
    v.vmax - v.vmin + 1 / 1000000 = 1 / 1000000 ∧
    (0 : ℚ) < v.vmax - v.vmin + 1 / 1000000 ∧
    ∀ i j k, i < v.h → j < v.w → k < v.d → (binarize v).data i j k = 0 := by
  have hmin := vmin_const v c h0 w0 d0 hc
  have hmax := vmax_const v c h0 w0 d0 hc
  refine ⟨by rw [hmin, hmax]; ring, by rw [hmin, hmax]; norm_num, ?_⟩
  intro i j k hi hj hk
  simp only [binarize]
  rw [hc i j k hi hj hk, hmin, hmax]
  rw [if_neg]
  norm_num

/-- C10 witness: the theorem applied to the 2x2x1 all-zero mask. -/
theorem C10_constant_label_binarize_zero_witness :
    0 < zVolW.h ∧ 0 < zVolW.w ∧ 0 < zVolW.d ∧
    (∀ i j k, i < zVolW.h → j < zVolW.w → k < zVolW.d → zVolW.data i j k = 0) ∧
    (zVolW.vmax - zVolW.vmin + 1 / 1000000 = 1 / 1000000 ∧
     (0 : ℚ) < zVolW.vmax - zVolW.vmin + 1 / 1000000 ∧
     ∀ i j k, i < zVolW.h → j < zVolW.w → k < zVolW.d →
       (binarize zVolW).data i j k = 0) := by
  refine ⟨by norm_num [zVolW], by norm_num [zVolW], by norm_num [zVolW],
    fun _ _ _ _ _ _ => rfl, ?_⟩
  exact C10_constant_label_binarize_zero zVolW 0 (by norm_num [zVolW])
    (by norm_num [zVolW]) (by norm_num [zVolW]) (fun _ _ _ _ _ _ => rfl)
